import Mathlib

/-!
Verification of the Discovery Engine (scripts/discover.py).

The Python module is shallowly embedded below:
* pure string helpers (normalize_domain, is_valid_domain, unique_sorted,
  backoff_delays, parse_crawl_delay, fetch_robots_and_delay) become Lean
  functions over String / List Char / rationals (floats in the source hold
  only dyadic values in the claims, so ℚ is exact);
* the providers' network interactions are modelled by outcome streams
  (Nat → HttpOutcome, Nat → DdgOutcome) supplied by the environment; the
  GoogleCSE retry loop is a `while True` that can diverge, so it takes a
  fuel parameter and returns `none` when the fuel is exhausted mid-loop;
* Python ints that may be negative (daily_quota_threshold, retry_attempts)
  are Int; counters that start at 0 are Nat.

ASCII note: Python's str.lower / \d / str.strip are Unicode-aware; the
embedding uses Lean's ASCII Char.toLower / Char.isDigit / Char.isWhitespace.
For the composite predicates below the difference is unobservable on the
regexes of the source (a non-ASCII digit fails the `[a-z0-9.-]` class just
as it fails the ASCII `\d` path, giving the same verdict).
-/

namespace Discover

/-! ### normalize_domain (discover.py lines 79-87) -/

/-- Leading and trailing whitespace removal, Python `str.strip()`. -/
def stripChars (l : List Char) : List Char :=
  ((l.dropWhile Char.isWhitespace).reverse.dropWhile Char.isWhitespace).reverse

/-- Suffix after the first occurrence of `sep`, if any:
Python `s.split(sep, 1)[-1]` returns this when `sep` occurs. -/
def afterFirstSub (sep : List Char) : List Char → Option (List Char)
  | [] => none
  | c :: rest =>
    if sep.isPrefixOf (c :: rest) then some ((c :: rest).drop sep.length)
    else afterFirstSub sep rest

/-- `normalize_domain` on the character list of the raw URL. -/
def normList (l : List Char) : List Char :=
  let d0 := stripChars l
  let d1 := (afterFirstSub ['/', '/'] d0).getD d0     -- remove scheme if present
  let d2 := d1.takeWhile (fun c => c ≠ '/')           -- keep host
  let d3 := d2.takeWhile (fun c => c ≠ ':')           -- drop port
  let d4 := d3.map Char.toLower
  if ['w', 'w', 'w', '.'].isPrefixOf d4 then d4.drop 4 else d4

/-- `normalize_domain(raw)` from discover.py. -/
def normalize_domain (s : String) : String := ⟨normList s.data⟩

/-! ### is_valid_domain (discover.py lines 89-102) -/

/-- Character class `[a-z0-9.-]`. -/
def classA (c : Char) : Bool := c.isLower || c.isDigit || c = '.' || c = '-'

/-- Split on every occurrence of a character (Python `str.split(c)` semantics:
`splitAllOn c []` is `[[]]`, mirroring `"".split(c) == [""]`). -/
def splitAllOn (c : Char) : List Char → List (List Char)
  | [] => [[]]
  | x :: xs =>
    let r := splitAllOn c xs
    if x = c then [] :: r
    else
      match r with
      | [] => [[x]]
      | g :: gs => (x :: g) :: gs

/-- One dotted-quad group: `\d{1,3}`. -/
def group13 (g : List Char) : Bool :=
  decide (1 ≤ g.length) && decide (g.length ≤ 3) && g.all Char.isDigit

/-- The regex `^\d{1,3}\.\d{1,3}\.\d{1,3}\.\d{1,3}$` without the
trailing-newline allowance of `$`. -/
def matchIPv4Core (l : List Char) : Bool :=
  let parts := splitAllOn '.' l
  decide (parts.length = 4) && parts.all group13

/-- Full Python semantics of the anchored IPv4 regex: `$` also matches just
before a newline that ends the string. -/
def matchIPv4 (l : List Char) : Bool :=
  matchIPv4Core l || (decide (l.getLast? = some '\n') && matchIPv4Core l.dropLast)

/-- The regex `^[a-z0-9.-]+\.[a-z]{2,}$` without the trailing-newline
allowance. Since `[a-z]{2,}` must reach the end and contains no dot, the
literal `\.` of the pattern can only be the last dot of the string. -/
def matchTLDCore (l : List Char) : Bool :=
  decide (2 ≤ (l.reverse.takeWhile (fun c => c ≠ '.')).length)
  && (l.reverse.takeWhile (fun c => c ≠ '.')).all Char.isLower
  && (match l.reverse.dropWhile (fun c => c ≠ '.') with
      | [] => false
      | _ :: pre => decide (pre ≠ []) && pre.all classA)

/-- Full Python semantics of the anchored TLD regex. -/
def matchTLD (l : List Char) : Bool :=
  matchTLDCore l || (decide (l.getLast? = some '\n') && matchTLDCore l.dropLast)

/-- `is_valid_domain(domain)` from discover.py: nonempty, length ≤ 253,
not a loopback/any-address literal, not a dotted quad, and matching the
TLD regex. The source returns False at the first failing check; the
conjunction is equivalent because every check is pure. -/
def is_valid_domain (s : String) : Bool :=
  let d := s.data
  !d.isEmpty
  && decide (d.length ≤ 253)
  && !(decide (d = "localhost".data) || decide (d = "127.0.0.1".data)
       || decide (d = "0.0.0.0".data) || decide (d = "::1".data))
  && !matchIPv4 d
  && matchTLD d

/-! ### unique_sorted (discover.py lines 104-107)

Python builds a set and then sorts it; `sortDedup` below realises exactly
that (sorted, duplicate-free) using the lexicographic order on `String`,
which agrees with Python's code-point comparison of `str`. -/

/-- Insert into a strictly sorted list, discarding an existing duplicate. -/
def sinsert (x : String) : List String → List String
  | [] => [x]
  | y :: ys =>
    if x < y then x :: y :: ys
    else if x = y then y :: ys
    else y :: sinsert x ys

/-- Sorted, deduplicated rendering of a list: Python `sorted(set(l))`. -/
def sortDedup : List String → List String
  | [] => []
  | x :: xs => sinsert x (sortDedup xs)

/-- `unique_sorted(domains)` from discover.py: normalize each input, keep
the truthy (nonempty) ones, keep the valid ones, return them sorted without
duplicates. -/
def unique_sorted (domains : List String) : List String :=
  sortDedup (((domains.map normalize_domain).filter
      (fun d => d ≠ "")).filter (fun d => is_valid_domain d))

/-- The orchestrator's aggregation (discover.py lines 448-464): the run-wide
set is the union of `unique_sorted` of every query's results, and the output
is that set sorted. -/
def runCollect (queryResults : List (List String)) : List String :=
  sortDedup ((queryResults.map unique_sorted).flatten)

/-! ### backoff_delays (discover.py lines 132-138)

The source computes the delays over floats; every value reachable from the
claims' inputs is dyadic, so ℚ is an exact model. `attempts` comes from
`int(cfg.get("retry_attempts", 3))` and may be negative, hence `Int`;
`range(max(0, attempts - 1))` is the loop count. -/

def backoffAux (max_s : ℚ) : ℚ → Nat → List ℚ
  | _, 0 => []
  | cur, n + 1 => cur :: backoffAux max_s (min max_s (cur * 2)) n

def backoff_delays (base max_s : ℚ) (attempts : Int) : List ℚ :=
  backoffAux max_s base (max 0 (attempts - 1)).toNat

/-! ### GoogleCSEProvider.query (discover.py lines 193-288)

The network is a stream `env : Nat → HttpOutcome` giving the outcome of the
k-th HTTP request of the call. The inner `while True` retry loop of the
source can diverge, so the loop functions take fuel and return `none` when
it runs out mid-loop; `some` results are exactly the terminating runs. -/

inductive HttpOutcome where
  /-- status 200; each item's `link or formattedUrl` (`none` when absent). -/
  | ok (items : List (Option String))
  /-- any non-200 status code. -/
  | status (code : Nat)
  /-- requests.Timeout, requests.ConnectionError or socket.timeout. -/
  | netErr
  /-- any other exception. -/
  | otherErr

/-- `idx = min(attempt - 1, len(delays) - 1)` over Python ints. -/
def googleRetryIdx (delays : List ℚ) (attempt : Nat) : Int :=
  min ((attempt : Int) - 1) ((delays.length : Int) - 1)

/-- The guard `idx >= 0 and idx < len(delays)` deciding whether the source
sleeps `delays[idx]` and retries (true) or gives up on the page (false). -/
def googleRetryOk (delays : List ℚ) (attempt : Nat) : Bool :=
  decide (0 ≤ googleRetryIdx delays attempt
    ∧ googleRetryIdx delays attempt < (delays.length : Int))

/-- One page's retry loop. Returns `some (some links, calls)` on a 200
response, `some (none, calls)` when the loop gives up on the page, `none`
when the fuel is exhausted while the source would still be looping. -/
def googleRetryPage (delays : List ℚ) (env : Nat → HttpOutcome) :
    Nat → Nat → Nat → Option (Option (List String) × Nat)
  | _, _, 0 => none
  | calls, attempt, fuel + 1 =>
    match env calls with
    | .ok items => some (some (items.filterMap id), calls + 1)
    | .status c =>
      if c = 429 ∨ c = 503 then
        if googleRetryOk delays attempt then
          googleRetryPage delays env (calls + 1) (attempt + 1) fuel
        else some (none, calls + 1)
      else some (none, calls + 1)
    | .netErr =>
      if googleRetryOk delays attempt then
        googleRetryPage delays env (calls + 1) (attempt + 1) fuel
      else some (none, calls + 1)
    | .otherErr => some (none, calls + 1)

/-- The pagination loop `while len(results) < max_results and start <= 91`.
A failed page leaves `results` unchanged and moves to the next offset, as
in the source. -/
def googlePages (delays : List ℚ) (env : Nat → HttpOutcome) (maxResults : Nat) :
    List String → Nat → Nat → Nat → Option (List String × Nat)
  | results, start, calls, 0 =>
    if results.length < maxResults ∧ start ≤ 91 then none
    else some (results, calls)
  | results, start, calls, fuel + 1 =>
    if results.length < maxResults ∧ start ≤ 91 then
      match googleRetryPage delays env calls 1 (fuel + 1) with
      | none => none
      | some (pageRes, calls') =>
        let results' := match pageRes with
          | some links => results ++ links
          | none => results
        if maxResults ≤ results'.length then some (results', calls')
        else googlePages delays env maxResults results' (start + 10) calls' fuel
    else some (results, calls)

/-- `GoogleCSEProvider.query(keyword, max_results)`. The result is
`(returned URLs, queries_made afterwards, HTTP requests issued)`; `none`
marks a run on which the source would not have terminated within `fuel`
loop iterations. -/
def googleQuery (api_key cx : String) (threshold : Int) (qm : Nat)
    (base max_s : ℚ) (retry_attempts : Int)
    (env : Nat → HttpOutcome) (maxResults : Nat) (fuel : Nat) :
    Option (List String × Nat × Nat) :=
  if ¬((qm : Int) < threshold) then some ([], qm, 0)
  else if ¬(api_key ≠ "" ∧ cx ≠ "") then some ([], qm + 1, 0)
  else
    match googlePages (backoff_delays base max_s retry_attempts) env maxResults
        [] 1 0 fuel with
    | none => none
    | some (results, calls) => some (results.take maxResults, qm + 1, calls)

/-- `if not self.api_key or not self.cx: logger.warning(...)` in
`GoogleCSEProvider.__init__` (empty strings are falsy). -/
def googleInitWarns (api_key cx : String) : Bool :=
  decide (api_key = "") || decide (cx = "")

/-! ### DuckDuckGoProvider.query (discover.py lines 309-359) -/

inductive DdgOutcome where
  /-- `ddgs.text` iterated to completion; per hit `href or link or url`. -/
  | ok (hits : List (Option String))
  /-- an exception was raised after the hits in `got` were yielded
  (results appended before the exception are kept by the source). -/
  | exc (got : List (Option String))

/-- The `while True` retry loop of `DuckDuckGoProvider.query`; `a` counts
the attempts already made, `env a` is the outcome of attempt `a + 1`.
Returns the accumulated URLs and the number of attempts made. Unlike the
Google loop this one is structurally bounded: a retry requires
`attempt <= len(delays)`. -/
def ddgLoop (delays : List ℚ) (env : Nat → DdgOutcome)
    (results : List String) (a : Nat) : List String × Nat :=
  match env a with
  | .ok hits => (results ++ hits.filterMap id, a + 1)
  | .exc got =>
    let results' := results ++ got.filterMap id
    if h : a + 1 ≤ delays.length then ddgLoop delays env results' (a + 1)
    else (results', a + 1)
  termination_by delays.length + 1 - a
  decreasing_by omega

/-- `DuckDuckGoProvider.query(keyword, max_results)`: result is
`(returned URLs, queries_made afterwards, attempts made)`. `ddgsAvailable`
models whether the duckduckgo_search import succeeded. -/
def ddgQuery (ddgsAvailable : Bool) (threshold : Int) (qm : Nat)
    (base max_s : ℚ) (retry_attempts : Int)
    (env : Nat → DdgOutcome) (maxResults : Nat) : List String × Nat × Nat :=
  if ¬((qm : Int) < threshold) then ([], qm, 0)
  else if ¬ddgsAvailable then ([], qm + 1, 0)
  else
    let r := ddgLoop (backoff_delays base max_s retry_attempts) env [] 0
    (r.1.take maxResults, qm + 1, r.2)

/-! ### parse_crawl_delay / fetch_robots_and_delay (discover.py lines 109-130)

The pattern `(?i)\s*crawl-?delay\s*:\s*` is matched by maximal munch; at
every boundary of the pattern the adjacent character classes are disjoint
(whitespace vs letters, vs ':', vs digits), so this equals the regex with
backtracking. -/

/-- Case-insensitive literal match; consumes `lit`, returns the rest. -/
def matchCI : List Char → List Char → Option (List Char)
  | [], l => some l
  | _ :: _, [] => none
  | c :: cs, x :: xs => if x.toLower = c then matchCI cs xs else none

theorem matchCI_length :
    ∀ {lit l r : List Char}, matchCI lit l = some r →
      r.length + lit.length = l.length := by
  intro lit
  induction lit with
  | nil =>
    intro l r h
    simp only [matchCI, Option.some.injEq] at h
    simp [← h]
  | cons c cs ih =>
    intro l r h
    cases l with
    | nil => simp [matchCI] at h
    | cons x xs =>
      simp only [matchCI] at h
      split at h
      · have := ih h
        simp only [List.length_cons]
        omega
      · exact absurd h (by simp)

/-- The optional hyphen `-?` of the pattern. -/
def dropDash : List Char → List Char
  | [] => []
  | c :: r => if c = '-' then r else c :: r

theorem dropDash_length (l : List Char) : (dropDash l).length ≤ l.length := by
  match l with
  | [] => simp [dropDash]
  | c :: r =>
    simp only [dropDash]
    split <;> simp

/-- Consume the prefix matched by `\s*crawl-?delay\s*:\s*` and return the
remainder, or `none` when the pattern does not match at the start. -/
def afterCrawlKey (l : List Char) : Option (List Char) :=
  match matchCI "crawl".data (l.dropWhile Char.isWhitespace) with
  | none => none
  | some l1 =>
    match matchCI "delay".data (dropDash l1) with
    | none => none
    | some l3 =>
      match l3.dropWhile Char.isWhitespace with
      | [] => none
      | c :: l4 => if c = ':' then some (l4.dropWhile Char.isWhitespace) else none

theorem afterCrawlKey_length {l r : List Char}
    (h : afterCrawlKey l = some r) : r.length < l.length := by
  unfold afterCrawlKey at h
  split at h
  · exact absurd h (by simp)
  next l1 h1 =>
    split at h
    · exact absurd h (by simp)
    next l3 h2 =>
      split at h
      · exact absurd h (by simp)
      next c l4 h3 =>
        split at h
        · have hd0 : (l.dropWhile Char.isWhitespace).length ≤ l.length :=
            (List.dropWhile_sublist _).length_le
          have hc1 : l1.length + 5 = (l.dropWhile Char.isWhitespace).length := by
            simpa using matchCI_length h1
          have hdash : (dropDash l1).length ≤ l1.length := dropDash_length l1
          have hc2 : l3.length + 5 = (dropDash l1).length := by
            simpa using matchCI_length h2
          have hd3 : (l3.dropWhile Char.isWhitespace).length ≤ l3.length :=
            (List.dropWhile_sublist _).length_le
          have hr : r = l4.dropWhile Char.isWhitespace := by
            cases h; rfl
          have hr4 : (l4.dropWhile Char.isWhitespace).length ≤ l4.length :=
            (List.dropWhile_sublist _).length_le
          have h34 : (l3.dropWhile Char.isWhitespace).length = l4.length + 1 := by
            rw [h3]; simp
          subst hr
          omega
        · exact absurd h (by simp)

/-- The test `re.match(r"(?i)\s*crawl-?delay\s*:\s*[0-9.]+", line)`: the
key pattern matches and at least one `[0-9.]` character follows. -/
def crawlDelayMatch (l : List Char) : Bool :=
  match afterCrawlKey l with
  | some (c :: _) => c.isDigit || c = '.'
  | _ => false

/-- `re.sub(r"(?i)\s*crawl-?delay\s*:\s*", "", line)`: delete every
(non-overlapping, leftmost) occurrence of the key pattern. -/
def subCrawlKey (l : List Char) : List Char :=
  match l with
  | [] => []
  | c :: rest =>
    match h : afterCrawlKey (c :: rest) with
    | some r => subCrawlKey r
    | none => c :: subCrawlKey rest
  termination_by l.length
  decreasing_by
  · exact afterCrawlKey_length h
  · simp

/-- Decimal digit-string value. -/
def digitsVal (l : List Char) : Nat :=
  l.foldl (fun acc c => acc * 10 + (c.toNat - '0'.toNat)) 0

/-- Python `float()` applied to the stripped remainder of a matched line.
The remainder that reaches it is arbitrary text; `float` succeeds exactly
on (sign-less) strings over `[0-9.]` with at least one digit and at most
one dot, and any other argument raises, which `parse_crawl_delay` turns
into `None`. -/
def floatOpt (l : List Char) : Option ℚ :=
  if l.all (fun c => c.isDigit || c = '.') ∧ l.count '.' ≤ 1
      ∧ l.any Char.isDigit then
    let intPart := l.takeWhile (fun c => c ≠ '.')
    let fracPart := (l.dropWhile (fun c => c ≠ '.')).drop 1
    some ((digitsVal intPart : ℚ) + (digitsVal fracPart : ℚ) / 10 ^ fracPart.length)
  else none

/-- The line scan of `parse_crawl_delay`: the first line matching the
pattern decides the result (a failed float parse returns `None`, it does
not continue scanning). -/
def parseLines : List (List Char) → Option ℚ
  | [] => none
  | line :: rest =>
    if crawlDelayMatch line then floatOpt (stripChars (subCrawlKey line))
    else parseLines rest

/-- `parse_crawl_delay(robots_txt)` from discover.py. Python `splitlines`
recognises a few more separators than `\n` and drops a trailing empty
line; the extra empty line produced here never matches the pattern, so the
scan result is the same. -/
def parse_crawl_delay (s : String) : Option ℚ :=
  parseLines (splitAllOn '\n' s.data)

/-! ### fetch_robots_and_delay (discover.py lines 119-130) -/

/-- Outcome of the single `requests.get(https://host/robots.txt)`. -/
inductive RobotsOutcome where
  /-- the request raised (timeout, connection error, anything). -/
  | exc
  /-- a response arrived with this status code and body (`resp.text or ""`). -/
  | resp (status : Nat) (body : String)

/-- `fetch_robots_and_delay(host, ua)`: returns `(allowed, crawl_delay)`. -/
def fetch_robots_and_delay : RobotsOutcome → Bool × Option ℚ
  | .exc => (true, none)
  | .resp status body =>
    if status ≠ 200 then (true, none)
    else (true, parse_crawl_delay body)

/-- `self.ddg_allowed` as assigned in `DuckDuckGoProvider.__init__` from
the first component of `fetch_robots_and_delay`. -/
def ddgInitAllowed (o : RobotsOutcome) : Bool := (fetch_robots_and_delay o).1

/-! ### main() (discover.py lines 391-480) -/

/-- The inputs determining `main`'s dry-run control flow. -/
structure Args where
  /-- `load_config` succeeded (file exists, keywords present/nonempty). -/
  cfgOk : Bool
  /-- `--provider` is `google` or `all`. -/
  selGoogle : Bool
  /-- `--provider` is `duckduckgo` or `all`. -/
  selDDG : Bool
  /-- `providers.google_cse.enabled` (default true). -/
  googleEnabled : Bool
  /-- `providers.duckduckgo.enabled` (default true). -/
  ddgEnabled : Bool
  /-- both credential environment variables are nonempty. -/
  googleCreds : Bool
  /-- the duckduckgo_search import succeeded. -/
  ddgsAvailable : Bool

/-- The dry-run path of `main()`: `(exit code, network requests issued)`.
Mirrors the source's order: config load (exit 2 on failure), provider
construction — `DuckDuckGoProvider.__init__` fetches robots.txt over the
network — the no-provider check (exit 3), then the dry-run branch, which
only logs credential/library presence and exits 0. -/
def mainDryRun (a : Args) : Nat × Nat :=
  if ¬a.cfgOk then (2, 0)
  else
    let googleIn := a.selGoogle && a.googleEnabled
    let ddgIn := a.selDDG && a.ddgEnabled
    let ncalls := if ddgIn then 1 else 0
    if ¬(googleIn || ddgIn) then (3, ncalls)
    else (0, ncalls)

/-- `queries_made` evolution over one (keyword, provider) iteration of the
main loop: the orchestrator skips the provider when `can_continue()` is
false, and otherwise calls `query`, which increments the counter by exactly
one (proved from the query embeddings in the claim C8 theorem). -/
def providerStep (threshold : Int) (qm : Nat) : Nat :=
  if (qm : Int) < threshold then qm + 1 else qm

/-- A provider's `queries_made` after `k` (keyword × provider) pairs of the
run, starting from the fresh counter 0. -/
def orchRun (threshold : Int) : Nat → Nat
  | 0 => 0
  | k + 1 => providerStep threshold (orchRun threshold k)

/-! ### Helper lemmas -/

theorem mem_sinsert {b x : String} {l : List String} :
    b ∈ sinsert x l ↔ b = x ∨ b ∈ l := by
  induction l with
  | nil => simp [sinsert]
  | cons y ys ih =>
    simp only [sinsert]
    by_cases h1 : x < y
    · rw [if_pos h1]; simp
    · rw [if_neg h1]
      by_cases h2 : x = y
      · rw [if_pos h2]; subst h2; simp only [List.mem_cons]; tauto
      · rw [if_neg h2]; simp only [List.mem_cons, ih]; tauto

theorem pairwise_sinsert {x : String} {l : List String}
    (h : l.Pairwise (· < ·)) : (sinsert x l).Pairwise (· < ·) := by
  induction l with
  | nil => simp [sinsert]
  | cons y ys ih =>
    rcases List.pairwise_cons.1 h with ⟨hy, hys⟩
    simp only [sinsert]
    by_cases h1 : x < y
    · rw [if_pos h1]
      refine List.pairwise_cons.2 ⟨?_, h⟩
      intro z hz
      rcases List.mem_cons.1 hz with rfl | hz
      · exact h1
      · exact lt_trans h1 (hy z hz)
    · rw [if_neg h1]
      by_cases h2 : x = y
      · rw [if_pos h2]; exact h
      · rw [if_neg h2]
        have hyx : y < x := lt_of_le_of_ne (not_lt.1 h1) (Ne.symm h2)
        refine List.pairwise_cons.2 ⟨?_, ih hys⟩
        intro z hz
        rcases mem_sinsert.1 hz with rfl | hz
        · exact hyx
        · exact hy z hz

theorem pairwise_sortDedup (l : List String) :
    (sortDedup l).Pairwise (· < ·) := by
  induction l with
  | nil => simp [sortDedup]
  | cons x xs ih => exact pairwise_sinsert ih

theorem mem_sortDedup {b : String} {l : List String} :
    b ∈ sortDedup l ↔ b ∈ l := by
  induction l with
  | nil => simp [sortDedup]
  | cons x xs ih => simp [sortDedup, mem_sinsert, ih]

theorem sinsert_of_head_lt {x : String} {l : List String}
    (h : ∀ z ∈ l, x < z) : sinsert x l = x :: l := by
  cases l with
  | nil => rfl
  | cons y ys =>
    simp only [sinsert]
    rw [if_pos (h y (List.mem_cons_self y ys))]

theorem sortDedup_of_pairwise {l : List String}
    (h : l.Pairwise (· < ·)) : sortDedup l = l := by
  induction l with
  | nil => rfl
  | cons x xs ih =>
    rcases List.pairwise_cons.1 h with ⟨hx, hxs⟩
    have : sortDedup (x :: xs) = sinsert x (sortDedup xs) := rfl
    rw [this, ih hxs, sinsert_of_head_lt hx]

theorem sortDedup_idem (l : List String) :
    sortDedup (sortDedup l) = sortDedup l :=
  sortDedup_of_pairwise (pairwise_sortDedup l)

/-- Every element of `unique_sorted` passed the validity filter. -/
theorem valid_of_mem_unique_sorted {d : String} {urls : List String}
    (h : d ∈ unique_sorted urls) : is_valid_domain d = true := by
  have := mem_sortDedup.1 h
  exact (List.mem_filter.1 this).2

theorem backoffAux_length (max_s cur : ℚ) (n : Nat) :
    (backoffAux max_s cur n).length = n := by
  induction n generalizing cur with
  | zero => rfl
  | succ n ih => simp [backoffAux, ih]

theorem backoff_delays_length (base max_s : ℚ) (attempts : Int) :
    (backoff_delays base max_s attempts).length = (attempts - 1).toNat := by
  unfold backoff_delays
  rw [backoffAux_length]
  omega

theorem backoffAux_get (max_s : ℚ) :
    ∀ (n : Nat) (cur : ℚ), 0 ≤ cur → cur ≤ max_s →
      ∀ (i : Nat) (h : i < (backoffAux max_s cur n).length),
        (backoffAux max_s cur n).get ⟨i, h⟩ = min max_s (cur * 2 ^ i) := by
  intro n
  induction n with
  | zero => intro cur _ _ i h; simp [backoffAux] at h
  | succ n ih =>
    intro cur hc0 hcm i h
    match i with
    | 0 => simpa [backoffAux] using (min_eq_right hcm).symm
    | i + 1 =>
      have hm0 : 0 ≤ max_s := le_trans hc0 hcm
      have hc0' : 0 ≤ min max_s (cur * 2) := le_min hm0 (by positivity)
      have hcm' : min max_s (cur * 2) ≤ max_s := min_le_left _ _
      have hlen : i < (backoffAux max_s (min max_s (cur * 2)) n).length := by
        have := h
        simp [backoffAux, backoffAux_length] at this ⊢
        omega
      have := ih (min max_s (cur * 2)) hc0' hcm' i hlen
      have hp : (1 : ℚ) ≤ 2 ^ i := one_le_pow₀ (by norm_num)
      have hstep : min max_s (min max_s (cur * 2) * 2 ^ i)
          = min max_s (cur * 2 ^ (i + 1)) := by
        rcases le_or_lt (cur * 2) max_s with hle | hlt
        · rw [min_eq_right hle]
          congr 1
          ring
        · rw [min_eq_left hlt.le]
          have h1 : max_s ≤ max_s * 2 ^ i := le_mul_of_one_le_right hm0 hp
          have h2 : max_s ≤ cur * 2 ^ (i + 1) := by
            have h3 : cur * 2 ≤ cur * 2 * 2 ^ i :=
              le_mul_of_one_le_right (by positivity) hp
            calc max_s ≤ cur * 2 := hlt.le
              _ ≤ cur * 2 * 2 ^ i := h3
              _ = cur * 2 ^ (i + 1) := by ring
          rw [min_eq_left h1, min_eq_left h2]
      calc (backoffAux max_s cur (n + 1)).get ⟨i + 1, h⟩
          = (backoffAux max_s (min max_s (cur * 2)) n).get ⟨i, hlen⟩ := rfl
        _ = min max_s (min max_s (cur * 2) * 2 ^ i) := this
        _ = min max_s (cur * 2 ^ (i + 1)) := hstep

/-- A valid domain is nonempty (the source's first check). -/
theorem ne_empty_of_valid {d : String} (h : is_valid_domain d = true) :
    d ≠ "" := by
  intro he
  rw [he] at h
  exact absurd h (by decide)

/-- A string without a dot fails the TLD regex (both with and without the
trailing-newline allowance of `$`). -/
theorem matchTLD_false_of_no_dot {l : List Char} (h : '.' ∉ l) :
    matchTLD l = false := by
  have hcore : ∀ l' : List Char, '.' ∉ l' → matchTLDCore l' = false := by
    intro l' h'
    unfold matchTLDCore
    have hrest : l'.reverse.dropWhile (fun c => c ≠ '.') = [] := by
      rw [List.dropWhile_eq_nil_iff]
      intro x hx
      simp only [ne_eq, decide_eq_true_eq]
      intro hdot
      exact h' (hdot ▸ List.mem_reverse.1 hx)
    rw [hrest]
    simp
  have hsub : '.' ∉ l.dropLast := fun hx => h ((List.dropLast_sublist l).subset hx)
  unfold matchTLD
  rw [hcore l h, hcore l.dropLast hsub]
  simp

/-- With a nonempty delay list and attempt number ≥ 1, the clamped index
`min(attempt-1, len(delays)-1)` always passes `0 <= idx < len(delays)`:
the Google retry guard can never report exhaustion. -/
theorem googleRetryOk_true {delays : List ℚ} {attempt : Nat}
    (hne : delays ≠ []) (ha : 1 ≤ attempt) :
    googleRetryOk delays attempt = true := by
  have hlen : 1 ≤ delays.length := List.length_pos.2 hne
  unfold googleRetryOk googleRetryIdx
  rw [decide_eq_true_eq]
  omega

/-- The DuckDuckGo retry loop makes at most `len(delays) + 1` attempts. -/
theorem ddgLoop_attempts (delays : List ℚ) (env : Nat → DdgOutcome) :
    ∀ (n a : Nat) (res : List String), delays.length + 1 - a ≤ n →
      a ≤ delays.length → (ddgLoop delays env res a).2 ≤ delays.length + 1 := by
  intro n
  induction n with
  | zero => intro a res hn ha; omega
  | succ n ih =>
    intro a res hn ha
    rw [ddgLoop]
    cases henv : env a with
    | ok hits => simpa using by omega
    | exc got =>
      dsimp only
      by_cases hle : a + 1 ≤ delays.length
      · rw [dif_pos hle]
        exact ih (a + 1) _ (by omega) hle
      · rw [dif_neg hle]
        simpa using by omega

/-- `DuckDuckGoProvider.query` updates `queries_made` exactly as the
orchestrator step function: +1 when `can_continue()`, unchanged otherwise. -/
theorem ddgQuery_queries_made (avail : Bool) (threshold : Int) (qm : Nat)
    (base max_s : ℚ) (retry_attempts : Int) (env : Nat → DdgOutcome)
    (maxResults : Nat) :
    (ddgQuery avail threshold qm base max_s retry_attempts env maxResults).2.1
      = providerStep threshold qm := by
  unfold ddgQuery providerStep
  by_cases hq : (qm : Int) < threshold
  · rw [if_neg (not_not_intro hq), if_pos hq]
    by_cases ha : avail
    · simp [ha]
    · simp [ha]
  · rw [if_pos hq, if_neg hq]

/-- `GoogleCSEProvider.query` updates `queries_made` exactly as the
orchestrator step function on every terminating run. -/
theorem googleQuery_queries_made {api_key cx : String} {threshold : Int}
    {qm : Nat} {base max_s : ℚ} {retry_attempts : Int}
    {env : Nat → HttpOutcome} {maxResults fuel : Nat}
    {res : List String × Nat × Nat}
    (h : googleQuery api_key cx threshold qm base max_s retry_attempts env
        maxResults fuel = some res) :
    res.2.1 = providerStep threshold qm := by
  unfold googleQuery at h
  split at h
  next hq =>
    injection h with h
    rw [← h]
    simp [providerStep, if_neg (fun hlt => hq hlt)]
  next hq =>
    split at h
    next hc =>
      injection h with h
      rw [← h]
      simp [providerStep, if_pos (not_not.1 hq)]
    next hc =>
      split at h
      · exact absurd h (by simp)
      next results calls hp =>
        injection h with h
        rw [← h]
        simp [providerStep, if_pos (not_not.1 hq)]

/-- One orchestrator pair never decreases the counter. -/
theorem orchRun_mono (threshold : Int) (k : Nat) :
    orchRun threshold k ≤ orchRun threshold (k + 1) := by
  show orchRun threshold k ≤ providerStep threshold (orchRun threshold k)
  unfold providerStep
  by_cases h : ((orchRun threshold k : Nat) : Int) < threshold
  · rw [if_pos h]; omega
  · rw [if_neg h]

/-- Mapping a function that fixes every element of a list is the identity. -/
theorem map_id_of_fixed {f : String → String} {l : List String}
    (h : ∀ a ∈ l, f a = a) : l.map f = l := by
  induction l with
  | nil => rfl
  | cons x xs ih =>
    simp only [List.map_cons, h x (List.mem_cons_self x xs)]
    rw [ih (fun a ha => h a (List.mem_cons_of_mem x ha))]

/-- Closed form of the counter after `k` pairs: `min k threshold`. -/
theorem orchRun_eq_min (tn : Nat) : ∀ k : Nat, orchRun (tn : Int) k = min k tn := by
  intro k
  induction k with
  | zero => simp [orchRun]
  | succ k ih =>
    show providerStep (tn : Int) (orchRun (tn : Int) k) = min (k + 1) tn
    rw [ih]
    unfold providerStep
    by_cases h : ((min k tn : Nat) : Int) < (tn : Int)
    · rw [if_pos h]
      omega
    · rw [if_neg h]
      omega

/-! ## Claim theorems -/

/-- Claim C5: `backoff_delays(base, max, attempts)` returns exactly
`attempts - 1` delay values doubling from `base` with ceiling `max`
(the i-th value is `min(max, base * 2^i)`), and
`backoff_delays(0.5, 8.0, 5) = [0.5, 1.0, 2.0, 4.0]` exactly. -/
theorem claim_C5_backoff_delays :
    (∀ (base max_s : ℚ) (attempts : Int), 0 ≤ base → base ≤ max_s →
      (backoff_delays base max_s attempts).length = (attempts - 1).toNat
      ∧ ∀ (i : Nat) (h : i < (backoff_delays base max_s attempts).length),
          (backoff_delays base max_s attempts).get ⟨i, h⟩
            = min max_s (base * 2 ^ i))
    ∧ backoff_delays (1/2) 8 5 = [1/2, 1, 2, 4] := by
  constructor
  · intro base max_s attempts h0 hm
    refine ⟨backoff_delays_length base max_s attempts, ?_⟩
    intro i h
    exact backoffAux_get max_s _ base h0 hm i h
  · show backoffAux 8 (1/2) (max 0 ((5:Int) - 1)).toNat = [1/2, 1, 2, 4]
    norm_num [backoffAux]

/-- Claim C5 witness at the spec's concrete input (0.5, 8.0, 5). -/
theorem claim_C5_backoff_delays_witness :
    (backoff_delays (1/2 : ℚ) 8 5).length = ((5 : Int) - 1).toNat :=
  (claim_C5_backoff_delays.1 (1/2) 8 5 (by norm_num) (by norm_num)).1

/-- Claim C6: `normalize_domain("https://WWW.Example.com/path")` is
`"example.com"` and valid; and `is_valid_domain(normalize_domain(url))` is
false for every URL whose normalization is a loopback/any-address literal,
a dotted quad (the IPv4 regex), or dot-free (schemeless/pathless malformed
strings never gain a dot under normalization). -/
theorem claim_C6_normalize_validate :
    (normalize_domain "https://WWW.Example.com/path" = "example.com"
      ∧ is_valid_domain "example.com" = true)
    ∧ (∀ url : String,
        normalize_domain url = "localhost" ∨ normalize_domain url = "127.0.0.1"
          ∨ normalize_domain url = "0.0.0.0" ∨ normalize_domain url = "::1" →
        is_valid_domain (normalize_domain url) = false)
    ∧ (∀ url : String, matchIPv4 (normalize_domain url).data = true →
        is_valid_domain (normalize_domain url) = false)
    ∧ (∀ url : String, '.' ∉ (normalize_domain url).data →
        is_valid_domain (normalize_domain url) = false) := by
  refine ⟨⟨by decide, by decide⟩, ?_, ?_, ?_⟩
  · intro url h
    rcases h with h | h | h | h <;> rw [h] <;> decide
  · intro url h
    simp [is_valid_domain, h]
  · intro url h
    simp [is_valid_domain, matchTLD_false_of_no_dot h]

/-- Claim C6 witness: the universal parts applied at concrete URLs. -/
theorem claim_C6_normalize_validate_witness :
    is_valid_domain (normalize_domain "http://localhost") = false
    ∧ is_valid_domain (normalize_domain "https://192.168.0.1/admin") = false
    ∧ is_valid_domain (normalize_domain "not a domain") = false :=
  ⟨claim_C6_normalize_validate.2.1 "http://localhost" (by decide),
   claim_C6_normalize_validate.2.2.1 "https://192.168.0.1/admin" (by decide),
   claim_C6_normalize_validate.2.2.2 "not a domain" (by decide)⟩

/-- Claim C10: `fetch_robots_and_delay` returns `True` as its `allowed`
component on every outcome of the robots.txt fetch (success, non-200,
exception), so the DuckDuckGo provider's `ddg_allowed` field is always
`True` and robots permission never blocks a query. -/
theorem claim_C10_robots_always_allowed :
    ∀ o : RobotsOutcome,
      (fetch_robots_and_delay o).1 = true ∧ ddgInitAllowed o = true := by
  intro o
  have h : (fetch_robots_and_delay o).1 = true := by
    cases o with
    | exc => rfl
    | resp status body =>
      by_cases h200 : status ≠ 200
      · simp [fetch_robots_and_delay, h200]
      · simp [fetch_robots_and_delay, h200]
  exact ⟨h, h⟩

/-- Claim C9: a GoogleCSE provider with missing credentials and remaining
quota returns `[]` from any `query`, increments `queries_made` by exactly
one, issues zero HTTP calls, and the missing-credential warning fires at
construction (it is exactly the missing-credential condition). -/
theorem claim_C9_google_missing_creds :
    ∀ (api_key cx : String) (threshold : Int) (qm : Nat) (base max_s : ℚ)
      (retry_attempts : Int) (env : Nat → HttpOutcome) (maxResults fuel : Nat),
      (api_key = "" ∨ cx = "") → (qm : Int) < threshold →
      googleQuery api_key cx threshold qm base max_s retry_attempts env
          maxResults fuel = some ([], qm + 1, 0)
      ∧ googleInitWarns api_key cx = true := by
  intro k c th qm b m ra env mr fuel hcred hq
  constructor
  · unfold googleQuery
    rw [if_neg (not_not_intro hq), if_pos]
    rintro ⟨h1, h2⟩
    rcases hcred with h | h
    · exact h1 h
    · exact h2 h
  · rcases hcred with h | h <;> simp [googleInitWarns, h]

/-- Claim C9 witness at a concrete missing-key provider. -/
theorem claim_C9_google_missing_creds_witness :
    googleQuery "" "cx0" 5 0 (1/2) 8 3 (fun _ => HttpOutcome.ok []) 10 1
        = some ([], 1, 0)
    ∧ googleInitWarns "" "cx0" = true :=
  claim_C9_google_missing_creds "" "cx0" 5 0 (1/2) 8 3 (fun _ => HttpOutcome.ok [])
    10 1 (Or.inl rfl) (by decide)

/-- Claim C2 counterexample: with the quota already exhausted
(`daily_quota_threshold = 0`), both providers' `query` returns `[]` with
`queries_made` left at 0 — not incremented to 1 as the claim requires for
the quota-exhausted case. -/
theorem claim_C2_increment_cex :
    googleQuery "k" "c" 0 0 (1/2) 8 3 (fun _ => HttpOutcome.ok []) 10 5
        = some ([], 0, 0)
    ∧ ddgQuery true 0 0 (1/2) 8 3 (fun _ => DdgOutcome.ok []) 10 = ([], 0, 0) :=
  ⟨rfl, rfl⟩

/-- Claim C2 (amended): for both providers, `query` increments
`queries_made` by exactly one whenever `can_continue()` holds at entry —
regardless of success, pagination, failure, missing credentials, or an
unavailable search library — and leaves the counter unchanged when the
quota is already exhausted; never more than once per logical query. -/
theorem claim_C2_increment_amended :
    (∀ (avail : Bool) (threshold : Int) (qm : Nat) (base max_s : ℚ)
        (retry_attempts : Int) (env : Nat → DdgOutcome) (maxResults : Nat),
      (ddgQuery avail threshold qm base max_s retry_attempts env maxResults).2.1
        = providerStep threshold qm)
    ∧ (∀ (api_key cx : String) (threshold : Int) (qm : Nat) (base max_s : ℚ)
        (retry_attempts : Int) (env : Nat → HttpOutcome) (maxResults fuel : Nat)
        (res : List String × Nat × Nat),
      googleQuery api_key cx threshold qm base max_s retry_attempts env
          maxResults fuel = some res →
      res.2.1 = providerStep threshold qm) :=
  ⟨fun avail th qm b m ra env mr => ddgQuery_queries_made avail th qm b m ra env mr,
   fun _ _ _ _ _ _ _ _ _ _ _ h => googleQuery_queries_made h⟩

/-- Claim C2 witness: a successful Google query at threshold 5 increments
the counter from 0 to 1 = providerStep 5 0. -/
theorem claim_C2_increment_amended_witness :
    ((["http://a.com"], 1, 1) : List String × Nat × Nat).2.1 = providerStep 5 0 :=
  claim_C2_increment_amended.2 "k" "c" 5 0 (1/2) 8 3
    (fun _ => HttpOutcome.ok [some "http://a.com"]) 1 2 (["http://a.com"], 1, 1)
    (by decide)

/-- Claim C4: the orchestrator's final output list is strictly sorted
(lexicographically), duplicate-free, and every entry passes
`is_valid_domain`. -/
theorem claim_C4_output_invariant :
    ∀ queryResults : List (List String),
      List.Sorted (· < ·) (runCollect queryResults)
      ∧ (runCollect queryResults).Nodup
      ∧ ∀ d ∈ runCollect queryResults, is_valid_domain d = true := by
  intro rs
  refine ⟨pairwise_sortDedup _, (pairwise_sortDedup _).imp ne_of_lt, ?_⟩
  intro d hd
  have hmem := mem_sortDedup.1 hd
  rw [List.mem_flatten] at hmem
  rcases hmem with ⟨l, hl, hdl⟩
  rcases List.mem_map.1 hl with ⟨r, _, rfl⟩
  exact valid_of_mem_unique_sorted hdl

/-- Claim C4 witness: validity of a member of a concrete run output. -/
theorem claim_C4_output_invariant_witness : is_valid_domain "a.com" = true :=
  (claim_C4_output_invariant [["http://A.com/x"]]).2.2 "a.com" (by decide)

/-- Claim C7 counterexample: `unique_sorted` is not idempotent.
`normalize` strips only one leading `www.`, so
`unique_sorted(["www.www.example.com"]) = ["www.example.com"]` — an output
element that is not a fixed point of `normalize` — and feeding the output
back yields `["example.com"]` instead. -/
theorem claim_C7_collect_idempotent_cex :
    unique_sorted (unique_sorted ["www.www.example.com"])
      ≠ unique_sorted ["www.www.example.com"] := by
  decide

/-- Claim C7 (amended): every output element of `unique_sorted` passes
`is_valid_domain`, and `unique_sorted` is idempotent on exactly those
inputs whose outputs are fixed points of `normalize_domain` (in general an
output may fail to be one: a valid host can still carry a second leading
`www.` or a trailing newline). -/
theorem claim_C7_collect_idempotent_amended :
    (∀ (urls : List String), ∀ d ∈ unique_sorted urls,
        is_valid_domain d = true)
    ∧ (∀ urls : List String,
        (∀ d ∈ unique_sorted urls, normalize_domain d = d) →
        unique_sorted (unique_sorted urls) = unique_sorted urls) := by
  constructor
  · intro urls d hd
    exact valid_of_mem_unique_sorted hd
  · intro urls hfix
    have hmap : (unique_sorted urls).map normalize_domain = unique_sorted urls :=
      map_id_of_fixed hfix
    have hvalid : ∀ d ∈ unique_sorted urls, is_valid_domain d = true :=
      fun d hd => valid_of_mem_unique_sorted hd
    show sortDedup ((((unique_sorted urls).map normalize_domain).filter
        (fun d => d ≠ "")).filter (fun d => is_valid_domain d)) = unique_sorted urls
    rw [hmap]
    rw [List.filter_eq_self.2 (fun d hd => by
          simpa using hvalid d (List.mem_of_mem_filter hd)),
        List.filter_eq_self.2 (fun d hd => by
          simpa using ne_empty_of_valid (hvalid d hd))]
    exact sortDedup_idem _

/-- Claim C7 witness: idempotence on a concrete input whose output is
normalize-fixed. -/
theorem claim_C7_collect_idempotent_amended_witness :
    unique_sorted (unique_sorted ["https://a.com/x"])
      = unique_sorted ["https://a.com/x"] :=
  claim_C7_collect_idempotent_amended.2 ["https://a.com/x"] (by decide)

/-- Claim C10 witness at two concrete fetch outcomes. -/
theorem claim_C10_robots_always_allowed_witness :
    (fetch_robots_and_delay RobotsOutcome.exc).1 = true
    ∧ ddgInitAllowed (RobotsOutcome.resp 404 "x") = true :=
  ⟨(claim_C10_robots_always_allowed RobotsOutcome.exc).1,
   (claim_C10_robots_always_allowed (RobotsOutcome.resp 404 "x")).2⟩

/-- Claim C1 (code evaluated at the failing input): the DuckDuckGo retry
loop is bounded by the attempt budget exactly as specified, but the Google
retry loop is not: whenever the delay list is nonempty, the clamped index
`min(attempt-1, len(delays)-1)` always passes the guard, so on persistent
retryable failures (HTTP 429 here) the loop never reaches its exhaustion
branch and never terminates — `googleRetryPage` returns `none` for every
amount of fuel. -/
theorem claim_C1_retry_budget_bug :
    (∀ (delays : List ℚ) (env : Nat → HttpOutcome) (fuel calls attempt : Nat),
        delays ≠ [] → 1 ≤ attempt → (∀ k, env k = HttpOutcome.status 429) →
        googleRetryPage delays env calls attempt fuel = none)
    ∧ (∀ (base max_s : ℚ) (retry_attempts : Int) (env : Nat → DdgOutcome)
        (results : List String), 1 ≤ retry_attempts →
        (((ddgLoop (backoff_delays base max_s retry_attempts) env results 0).2
          : Int)) ≤ retry_attempts) := by
  constructor
  · intro delays env fuel
    induction fuel with
    | zero => intro calls attempt _ _ _; rfl
    | succ fuel ih =>
      intro calls attempt hne ha henv
      have hok := googleRetryOk_true hne ha
      simp only [googleRetryPage, henv calls, hok, if_true]
      rw [if_pos (Or.inl trivial)]
      exact ih (calls + 1) (attempt + 1) hne (by omega) henv
  · intro b m ra env res hra
    have h1 := ddgLoop_attempts (backoff_delays b m ra) env
      ((backoff_delays b m ra).length + 1) 0 res (by omega) (by omega)
    have h2 := backoff_delays_length b m ra
    omega

/-- Claim C1 witness: with the default-like delays [0.5, 1] (retry
attempts 3) and an endpoint that always answers 429, the Google page loop
does not terminate in 30 iterations (nor any other number); and the DDG
loop with retry_attempts 3 makes at most 3 attempts. -/
theorem claim_C1_retry_budget_bug_witness :
    googleRetryPage [(1 : ℚ)/2, 1] (fun _ => HttpOutcome.status 429) 0 1 30 = none
    ∧ (((ddgLoop (backoff_delays (1/2 : ℚ) 8 3) (fun _ => DdgOutcome.exc []) [] 0).2
        : Int)) ≤ 3 :=
  ⟨claim_C1_retry_budget_bug.1 [(1 : ℚ)/2, 1] (fun _ => HttpOutcome.status 429)
      30 0 1 (by decide) (by decide) (fun k => rfl),
   claim_C1_retry_budget_bug.2 (1/2) 8 3 (fun _ => DdgOutcome.exc []) []
      (by decide)⟩

/-- Claim C3 counterexample: dry-run with a loadable config, both providers
selected and enabled, missing Google credentials: the process still issues
one network request (the robots.txt fetch in `DuckDuckGoProvider.__init__`,
which runs before the dry-run branch) and exits 0 even though credential
validation failed. -/
theorem claim_C3_dry_run_cex :
    mainDryRun ⟨true, true, true, true, true, false, true⟩ = (0, 1) := rfl

/-- Claim C3 (amended): dry-run reflects only config validation in its exit
code — exit 2 when the config fails to load, exit 3 when no provider is
selected and enabled, and otherwise exit 0 regardless of credential or
library presence (those are only logged); moreover whenever the DuckDuckGo
provider is constructed, one robots.txt network fetch is issued even in
dry-run. -/
theorem claim_C3_dry_run_amended :
    (∀ a : Args, a.cfgOk = false → mainDryRun a = (2, 0))
    ∧ (∀ a : Args, a.cfgOk = true → (a.selGoogle && a.googleEnabled) = false →
        (a.selDDG && a.ddgEnabled) = false → mainDryRun a = (3, 0))
    ∧ (∀ a : Args, a.cfgOk = true →
        ((a.selGoogle && a.googleEnabled) || (a.selDDG && a.ddgEnabled)) = true →
        (mainDryRun a).1 = 0
        ∧ (mainDryRun a).2 = if a.selDDG && a.ddgEnabled then 1 else 0) := by
  refine ⟨?_, ?_, ?_⟩
  · intro a h
    simp [mainDryRun, h]
  · intro a h hg hd
    simp [mainDryRun, h, hg, hd]
  · intro a h hor
    constructor
    · simp [mainDryRun, h, hor]
    · by_cases hd : (a.selDDG && a.ddgEnabled) = true
      · simp [mainDryRun, h, hor, hd]
      · have hd' := eq_false_of_ne_true hd
        rw [hd', Bool.or_false] at hor
        simp [mainDryRun, h, hor, hd']

/-- Claim C3 witness: with config OK, Google deselected and DDG enabled,
the dry run exits 0 and issues one network call. -/
theorem claim_C3_dry_run_amended_witness :
    (mainDryRun ⟨true, false, true, true, true, false, true⟩).1 = 0
    ∧ (mainDryRun ⟨true, false, true, true, true, false, true⟩).2
        = if (⟨true, false, true, true, true, false, true⟩ : Args).selDDG
            && (⟨true, false, true, true, true, false, true⟩ : Args).ddgEnabled
          then 1 else 0 :=
  claim_C3_dry_run_amended.2.2 ⟨true, false, true, true, true, false, true⟩
    rfl (by decide)

/-- Claim C8: per provider, `queries_made` is monotonically non-decreasing
along the run and after `k` (keyword × enabled provider) pairs equals
`min k threshold` — so it never exceeds the number of pairs processed
before quota exhaustion, nor `threshold + k`; and the per-pair step is
exactly what both providers' `query` does to the counter. -/
theorem claim_C8_orchestrator_quota :
    (∀ (threshold : Int) (k : Nat), orchRun threshold k ≤ orchRun threshold (k + 1))
    ∧ (∀ (tn k : Nat), orchRun (tn : Int) k = min k tn
        ∧ orchRun (tn : Int) k ≤ k ∧ orchRun (tn : Int) k ≤ tn + k)
    ∧ (∀ (avail : Bool) (threshold : Int) (qm : Nat) (base max_s : ℚ)
        (retry_attempts : Int) (env : Nat → DdgOutcome) (maxResults : Nat),
      (ddgQuery avail threshold qm base max_s retry_attempts env maxResults).2.1
        = providerStep threshold qm)
    ∧ (∀ (api_key cx : String) (threshold : Int) (qm : Nat) (base max_s : ℚ)
        (retry_attempts : Int) (env : Nat → HttpOutcome) (maxResults fuel : Nat)
        (res : List String × Nat × Nat),
      googleQuery api_key cx threshold qm base max_s retry_attempts env
          maxResults fuel = some res →
      res.2.1 = providerStep threshold qm) := by
  refine ⟨orchRun_mono, ?_,
    fun avail th qm b m ra env mr => ddgQuery_queries_made avail th qm b m ra env mr,
    fun _ _ _ _ _ _ _ _ _ _ _ h => googleQuery_queries_made h⟩
  intro tn k
  have h := orchRun_eq_min tn k
  exact ⟨h, by omega, by omega⟩

/-- Claim C8 witness: a Google query that exhausts its (empty) backoff
budget on every page still increments the counter by exactly the step
function, and the counter closed form at threshold 2 after 5 pairs. -/
theorem claim_C8_orchestrator_quota_witness :
    ((([] : List String), 1, 10) : List String × Nat × Nat).2.1 = providerStep 5 0
    ∧ orchRun ((2 : Nat) : Int) 5 = min 5 2 :=
  ⟨claim_C8_orchestrator_quota.2.2.2 "k" "c" 5 0 (1/2) 8 1
      (fun _ => HttpOutcome.status 429) 10 50 ([], 1, 10) (by decide),
   (claim_C8_orchestrator_quota.2.1 2 5).1⟩

end Discover
